import Mathlib

/-!
Verification of the webhook verification/dispatch subsystem of the
cyrus-codegen repository (package codegen-integration).

The embedding works at the byte level: JavaScript strings that the code
only ever feeds to Buffer.from(s, "utf8") or compares are represented as
lists of byte values (List Nat, each element < 256).  Pure functions of
the source (WebhookHandler.computeSignature, verifySignature,
validatePayloadTimestamp, off, executeHandlers, processWebhook and the
Zod schema WebhookEventPayloadSchema) are translated into Lean functions.
External builtins the code calls are handled as follows:

* node:crypto createHmac("sha256", ...) is given a full executable
  implementation of HMAC-SHA256 (FIPS 180-4 / RFC 2104) below;
* JSON.parse is an engine builtin, so processWebhook is parameterised by
  a function jparse : List Nat -> Except (List Nat) Json standing for it;
* new Date(...).getTime() on the parsed timestamp is likewise a
  parameter toTime : List Nat -> Rat (milliseconds since the epoch);
* Date arithmetic and JS number arithmetic are modelled over Rat.

Registered handlers are identified by their reference, modelled as a
Nat id; the JS identity comparison h !== handler becomes id inequality.
The behaviour of a handler is a parameter
runHandler : Nat -> WebhookEventPayload -> Except (List Nat) Unit.
-/

namespace CyrusCodegen

/-- Byte values of an ASCII string literal.  For the ASCII strings used
by the source (event names, object keys, the digest header) the UTF-8
bytes coincide with the character codes. -/
def ascii (s : String) : List Nat := s.data.map Char.toNat

/-- Two to the power 32, the modulus of the 32-bit words of SHA-256. -/
def w32 : Nat := 4294967296

/-- Right rotation of a 32-bit word. -/
def rotr (n x : Nat) : Nat := ((x >>> n) ||| (x <<< (32 - n))) % w32

/-- SHA-256 big sigma 0. -/
def bigS0 (x : Nat) : Nat := (rotr 2 x) ^^^ (rotr 13 x) ^^^ (rotr 22 x)

/-- SHA-256 big sigma 1. -/
def bigS1 (x : Nat) : Nat := (rotr 6 x) ^^^ (rotr 11 x) ^^^ (rotr 25 x)

/-- SHA-256 small sigma 0. -/
def smallS0 (x : Nat) : Nat := (rotr 7 x) ^^^ (rotr 18 x) ^^^ (x >>> 3)

/-- SHA-256 small sigma 1. -/
def smallS1 (x : Nat) : Nat := (rotr 17 x) ^^^ (rotr 19 x) ^^^ (x >>> 10)

/-- SHA-256 choice function; the complement is taken inside 32 bits. -/
def chF (x y z : Nat) : Nat := (x &&& y) ^^^ ((x ^^^ 4294967295) &&& z)

/-- SHA-256 majority function. -/
def majF (x y z : Nat) : Nat := (x &&& y) ^^^ (x &&& z) ^^^ (y &&& z)

/-- The 64 SHA-256 round constants (fractional parts of cube roots of
the first 64 primes). -/
def sha256K : List Nat :=
  [1116352408, 1899447441, 3049323471, 3921009573, 961987163, 1508970993,
   2453635748, 2870763221, 3624381080, 310598401, 607225278, 1426881987,
   1925078388, 2162078206, 2614888103, 3248222580, 3835390401, 4022224774,
   264347078, 604807628, 770255983, 1249150122, 1555081692, 1996064986,
   2554220882, 2821834349, 2952996808, 3210313671, 3336571891, 3584528711,
   113926993, 338241895, 666307205, 773529912, 1294757372, 1396182291,
   1695183700, 1986661051, 2177026350, 2456956037, 2730485921, 2820302411,
   3259730800, 3345764771, 3516065817, 3600352804, 4094571909, 275423344,
   430227734, 506948616, 659060556, 883997877, 958139571, 1322822218,
   1537002063, 1747873779, 1955562222, 2024104815, 2227730452, 2361852424,
   2428436474, 2756734187, 3204031479, 3329325298]

/-- Working state of the SHA-256 compression function. -/
structure Sha256State where
  a : Nat
  b : Nat
  c : Nat
  d : Nat
  e : Nat
  f : Nat
  g : Nat
  h : Nat

/-- Initial SHA-256 hash value (fractional parts of square roots of the
first 8 primes). -/
def sha256Init : Sha256State :=
  ⟨1779033703, 3144134277, 1013904242, 2773480762,
   1359893119, 2600822924, 528734635, 1541459225⟩

/-- One SHA-256 round; kw is the round constant already added to the
scheduled message word. -/
def sha256Round (s : Sha256State) (kw : Nat) : Sha256State :=
  let t1 := (s.h + bigS1 s.e + chF s.e s.f s.g + kw) % w32
  let t2 := (bigS0 s.a + majF s.a s.b s.c) % w32
  ⟨(t1 + t2) % w32, s.a, s.b, s.c, (s.d + t1) % w32, s.e, s.f, s.g⟩

/-- One step of message-schedule extension.  The accumulator keeps the
schedule in reverse, newest word first, so the words at offsets 2, 7,
15 and 16 from the next index sit at positions 1, 6, 14 and 15. -/
def scheduleStep (rev : List Nat) : List Nat :=
  ((rev.getD 15 0 + smallS0 (rev.getD 14 0) + rev.getD 6 0
      + smallS1 (rev.getD 1 0)) % w32) :: rev

/-- Extend 16 message words to the 64-entry SHA-256 schedule. -/
def sha256Schedule (w16 : List Nat) : List Nat :=
  ((List.range 48).foldl (fun rev _ => scheduleStep rev) w16.reverse).reverse

/-- Big-endian combination of bytes into 32-bit words. -/
def bytesToWords : List Nat → List Nat
  | b0 :: b1 :: b2 :: b3 :: rest =>
      (((b0 * 256 + b1) * 256 + b2) * 256 + b3) :: bytesToWords rest
  | _ => []

/-- SHA-256 compression of one 64-byte block into the chaining state. -/
def sha256Compress (st : Sha256State) (block : List Nat) : Sha256State :=
  let w := sha256Schedule (bytesToWords block)
  let kw := (sha256K.zip w).map (fun p => (p.1 + p.2) % w32)
  let s := kw.foldl sha256Round st
  ⟨(st.a + s.a) % w32, (st.b + s.b) % w32, (st.c + s.c) % w32,
   (st.d + s.d) % w32, (st.e + s.e) % w32, (st.f + s.f) % w32,
   (st.g + s.g) % w32, (st.h + s.h) % w32⟩

/-- Big-endian 8-byte encoding of the message bit length. -/
def lenBytes64 (n : Nat) : List Nat :=
  (List.range 8).map (fun i => (n >>> (8 * (7 - i))) % 256)

/-- SHA-256 padding: a 0x80 byte, zeros to 56 mod 64, then the bit
length; the result has length a multiple of 64. -/
def sha256Pad (msg : List Nat) : List Nat :=
  msg ++ 128 :: List.replicate ((64 - ((msg.length + 9) % 64)) % 64) 0
      ++ lenBytes64 (8 * msg.length)

/-- Split a byte list into 64-byte blocks; the first argument is fuel
bounding the recursion by the length of the list. -/
def toBlocks : Nat → List Nat → List (List Nat)
  | 0, _ => []
  | _ + 1, [] => []
  | fuel + 1, l => l.take 64 :: toBlocks fuel (l.drop 64)

/-- Big-endian bytes of a 32-bit word. -/
def wordBytes (x : Nat) : List Nat :=
  [(x >>> 24) % 256, (x >>> 16) % 256, (x >>> 8) % 256, x % 256]

/-- Digest bytes of a final SHA-256 state. -/
def stateBytes (s : Sha256State) : List Nat :=
  wordBytes s.a ++ wordBytes s.b ++ wordBytes s.c ++ wordBytes s.d ++
  wordBytes s.e ++ wordBytes s.f ++ wordBytes s.g ++ wordBytes s.h

/-- Final chaining state of SHA-256 over a padded message. -/
def sha256Run (msg : List Nat) : Sha256State :=
  (toBlocks (sha256Pad msg).length (sha256Pad msg)).foldl sha256Compress sha256Init

/-- SHA-256 of a byte list, as the 32 digest bytes. -/
def sha256 (msg : List Nat) : List Nat := stateBytes (sha256Run msg)

/-- Keys longer than the 64-byte block size are hashed first (RFC 2104). -/
def hmacShortKey (key : List Nat) : List Nat :=
  if 64 < key.length then sha256 key else key

/-- HMAC key preprocessing: the shortened key zero-padded to exactly 64
bytes.  Zero padding makes the preprocessing non-injective: a key and
the same key with trailing zero bytes yield the same block key. -/
def hmacBlockKey (key : List Nat) : List Nat :=
  hmacShortKey key ++ List.replicate (64 - (hmacShortKey key).length) 0

/-- HMAC-SHA256 digest bytes, as computed by createHmac("sha256", key)
followed by update(msg) and digest(). -/
def hmacSha256 (key msg : List Nat) : List Nat :=
  sha256 (((hmacBlockKey key).map (fun b => b ^^^ 92)) ++
    sha256 (((hmacBlockKey key).map (fun b => b ^^^ 54)) ++ msg))

/-- Lowercase hexadecimal digit byte. -/
def hexDigit (n : Nat) : Nat := if n < 10 then 48 + n else 87 + n

/-- Two hex digit bytes of one byte value. -/
def byteHex (b : Nat) : List Nat := [hexDigit (b / 16), hexDigit (b % 16)]

/-- Hex encoding of a byte list, as digest("hex") produces. -/
def bytesHex (l : List Nat) : List Nat := (l.map byteHex).flatten

/-- WebhookHandler.computeSignature: the string sha256= followed by the
hex HMAC-SHA256 digest of the payload under the secret. -/
def computeSignature (secret payload : List Nat) : List Nat :=
  ascii ("sha256=") ++ bytesHex (hmacSha256 secret payload)

/-- ASCII whitespace bytes removed by the JS String trim used in the
empty-signature guard (the guard only ever needs that the byte s of the
expected digest header is not whitespace). -/
def isJsSpace (b : Nat) : Bool :=
  b == 9 || b == 10 || b == 11 || b == 12 || b == 13 || b == 32

/-- Byte-level model of String.prototype.trim. -/
def trimBytes (l : List Nat) : List Nat :=
  ((l.dropWhile isJsSpace).reverse.dropWhile isJsSpace).reverse

/-- WebhookHandler.verifySignature: false on an empty or all-whitespace
signature, false on a byte-length mismatch with the expected header,
otherwise the timing-safe equality of the two byte strings.  The
timingSafeEqual call of the source is equality of equal-length buffers;
the surrounding try/catch is unreachable because the length guard runs
first, so no branch of the model throws. -/
def verifySignature (secret payload signature : List Nat) : Bool :=
  if signature.length = 0 ∨ (trimBytes signature).length = 0 then false
  else if signature.length ≠ (computeSignature secret payload).length then false
  else decide (signature = computeSignature secret payload)

/-- Byte values of the header literal sha256=. -/
theorem ascii_sig_head : ascii ("sha256=") = [115, 104, 97, 50, 53, 54, 61] := by
  decide

/-- Hex encoding of a cons. -/
theorem bytesHex_cons (a : Nat) (l : List Nat) :
    bytesHex (a :: l) = byteHex a ++ bytesHex l := by
  simp [bytesHex]

/-- Hex encoding doubles the length. -/
theorem bytesHex_length (l : List Nat) : (bytesHex l).length = 2 * l.length := by
  induction l with
  | nil => rfl
  | cons a l ih =>
    rw [bytesHex_cons, List.length_append, ih]
    simp [byteHex]
    omega

/-- A SHA-256 digest always has 32 bytes. -/
theorem sha256_length (msg : List Nat) : (sha256 msg).length = 32 := by
  simp [sha256, stateBytes, wordBytes]

/-- The expected signature header always has 71 bytes. -/
theorem computeSignature_length (secret payload : List Nat) :
    (computeSignature secret payload).length = 71 := by
  rw [computeSignature, List.length_append, ascii_sig_head, hmacSha256,
    bytesHex_length, sha256_length]
  decide

/-- The expected signature header starts with the byte of s. -/
theorem computeSignature_cons (secret payload : List Nat) :
    ∃ t, computeSignature secret payload = 115 :: t := by
  refine ⟨[104, 97, 50, 53, 54, 61] ++ bytesHex (hmacSha256 secret payload), ?_⟩
  unfold computeSignature
  rw [ascii_sig_head]
  simp

/-- Trimming a byte string with a non-whitespace head is not empty. -/
theorem trimBytes_ne_nil (b : Nat) (l : List Nat) (hb : isJsSpace b = false) :
    trimBytes (b :: l) ≠ [] := by
  intro h
  unfold trimBytes at h
  rw [List.dropWhile_cons, hb] at h
  simp only [Bool.false_eq_true, if_false] at h
  rw [List.reverse_eq_nil_iff, List.dropWhile_eq_nil_iff] at h
  have hbb := h b (by simp)
  rw [hb] at hbb
  exact Bool.false_ne_true hbb

/-- Characterisation of verifySignature: it accepts exactly the one
byte string equal to the expected header. -/
theorem verifySignature_iff (secret payload sig : List Nat) :
    verifySignature secret payload sig = true ↔
      sig = computeSignature secret payload := by
  constructor
  · intro h
    unfold verifySignature at h
    split at h
    · exact absurd h (by simp)
    · split at h
      · exact absurd h (by simp)
      · exact of_decide_eq_true h
  · intro h
    subst h
    obtain ⟨t, ht⟩ := computeSignature_cons secret payload
    have h1 : ¬((computeSignature secret payload).length = 0) := by
      rw [computeSignature_length]; omega
    have h2 : ¬((trimBytes (computeSignature secret payload)).length = 0) := by
      rw [ht]
      intro hz
      exact trimBytes_ne_nil 115 t (by decide) (List.length_eq_zero.mp hz)
    unfold verifySignature
    rw [if_neg (not_or.mpr ⟨h1, h2⟩), if_neg (not_not_intro rfl)]
    exact decide_eq_true rfl

/-- Hex digits are injective on values below 16. -/
theorem hexDigit_inj (x y : Nat) (hx : x < 16) (hy : y < 16)
    (h : hexDigit x = hexDigit y) : x = y := by
  unfold hexDigit at h
  split at h <;> split at h <;> omega

/-- Hex encoding of a byte is injective. -/
theorem byteHex_inj (a b : Nat) (ha : a < 256) (hb : b < 256)
    (h : byteHex a = byteHex b) : a = b := by
  unfold byteHex at h
  injection h with h1 h2
  injection h2 with h2 _
  have e1 := hexDigit_inj _ _ (by omega) (by omega) h1
  have e2 := hexDigit_inj _ _ (by omega) (by omega) h2
  omega

/-- Hex encoding is injective on byte lists. -/
theorem bytesHex_inj : ∀ (l1 l2 : List Nat),
    (∀ b ∈ l1, b < 256) → (∀ b ∈ l2, b < 256) →
    bytesHex l1 = bytesHex l2 → l1 = l2
  | [], [], _, _, _ => rfl
  | [], b :: l2, _, _, h => by simp [bytesHex, bytesHex_cons, byteHex] at h
  | a :: l1, [], _, _, h => by simp [bytesHex, bytesHex_cons, byteHex] at h
  | a :: l1, b :: l2, h1, h2, h => by
    rw [bytesHex_cons, bytesHex_cons] at h
    obtain ⟨hh, ht⟩ := List.append_inj h (by simp [byteHex])
    have hab := byteHex_inj a b (h1 a (by simp)) (h2 b (by simp)) hh
    have htl := bytesHex_inj l1 l2 (fun x hx => h1 x (by simp [hx]))
      (fun x hx => h2 x (by simp [hx])) ht
    rw [hab, htl]

/-- All bytes of a word encoding are below 256. -/
theorem wordBytes_lt (x : Nat) : ∀ b ∈ wordBytes x, b < 256 := by
  intro b hb
  simp only [wordBytes, List.mem_cons, List.not_mem_nil, or_false] at hb
  rcases hb with rfl | rfl | rfl | rfl <;> exact Nat.mod_lt _ (by decide)

/-- All bytes of a serialised state are below 256. -/
theorem stateBytes_lt (s : Sha256State) : ∀ b ∈ stateBytes s, b < 256 := by
  intro b hb
  unfold stateBytes at hb
  simp only [List.mem_append] at hb
  rcases hb with (((((((hw | hw) | hw) | hw) | hw) | hw) | hw) | hw) <;>
    exact wordBytes_lt _ _ hw

/-- All bytes of a SHA-256 digest are below 256. -/
theorem sha256_lt (msg : List Nat) : ∀ b ∈ sha256 msg, b < 256 :=
  fun b hb => stateBytes_lt (sha256Run msg) b hb

/-- Equal signature headers force equal HMAC digests. -/
theorem computeSignature_digest_inj (s1 s2 p : List Nat)
    (h : computeSignature s1 p = computeSignature s2 p) :
    hmacSha256 s1 p = hmacSha256 s2 p := by
  unfold computeSignature at h
  have h2 := List.append_cancel_left h
  exact bytesHex_inj _ _ (fun b hb => sha256_lt _ b hb)
    (fun b hb => sha256_lt _ b hb) h2

/-- C2 (amended): verifying a payload against the signature computed
with the same secret succeeds; verifying against a signature computed
with a second secret fails whenever the two secrets produce different
HMAC digests for that payload.  The original claim, that any second
secret different from the first is rejected, fails because HMAC key
preprocessing zero-pads keys to the block size, so distinct secrets can
share every digest. -/
theorem webhook_sign_verify_key_sensitivity (p s s2 : List Nat)
    (hne : hmacSha256 s2 p ≠ hmacSha256 s p) :
    verifySignature s p (computeSignature s p) = true ∧
    verifySignature s p (computeSignature s2 p) = false := by
  constructor
  · exact (verifySignature_iff s p _).mpr rfl
  · by_contra hc
    rw [Bool.not_eq_false] at hc
    exact hne (computeSignature_digest_inj s2 s p
      ((verifySignature_iff s p _).mp hc))

set_option maxRecDepth 100000 in
/-- Witness for C2 at secret k, second secret l, empty payload: the two
HMAC digests are computed concretely and differ. -/
theorem webhook_sign_verify_key_sensitivity_witness :
    verifySignature [107] [] (computeSignature [107] []) = true ∧
    verifySignature [107] [] (computeSignature [108] []) = false :=
  webhook_sign_verify_key_sensitivity [] [107] [108] (by decide)

/-- Counterexample for C2 as stated: the secret k and the distinct
secret consisting of k followed by a zero byte produce the same
signature header, so a signature signed with the second verifies under
the first. -/
theorem webhook_sign_verify_distinct_secret_collision :
    ([107] : List Nat) ≠ [107, 0] ∧
    verifySignature [107] [] (computeSignature [107, 0] []) = true := by
  constructor
  · decide
  · have hb : hmacBlockKey [107, 0] = hmacBlockKey [107] := by decide
    have hs : computeSignature [107, 0] [] = computeSignature [107] [] := by
      unfold computeSignature hmacSha256
      rw [hb]
    rw [hs]
    exact (verifySignature_iff _ _ _).mpr rfl

/-- C3: verifySignature is a total function (the model never throws by
construction, matching the source where the length guard makes the
try/catch unreachable), and it returns false whenever the signature
trims to the empty string, whenever its byte length differs from that
of the expected header, and whenever it is not byte-for-byte equal to
the expected header. -/
theorem webhook_verify_totality_and_false_cases (secret payload sig : List Nat) :
    (trimBytes sig = [] → verifySignature secret payload sig = false) ∧
    (sig.length ≠ (computeSignature secret payload).length →
      verifySignature secret payload sig = false) ∧
    (sig ≠ computeSignature secret payload →
      verifySignature secret payload sig = false) := by
  refine ⟨?_, ?_, ?_⟩
  · intro ht
    unfold verifySignature
    rw [if_pos (Or.inr (by rw [ht]; rfl))]
  · intro hl
    unfold verifySignature
    rcases Decidable.em (sig.length = 0 ∨ (trimBytes sig).length = 0) with hg | hg
    · rw [if_pos hg]
    · rw [if_neg hg, if_pos hl]
  · intro hne
    unfold verifySignature
    rcases Decidable.em (sig.length = 0 ∨ (trimBytes sig).length = 0) with hg | hg
    · rw [if_pos hg]
    · rw [if_neg hg]
      rcases Decidable.em (sig.length ≠ (computeSignature secret payload).length)
        with h2 | h2
      · rw [if_pos h2]
      · rw [if_neg h2]
        exact decide_eq_false hne

/-- Witness for C3: the empty signature, a one-byte signature of the
wrong length, and a signature different from the expected header are
all rejected for the concrete secret k and empty payload. -/
theorem webhook_verify_totality_and_false_cases_witness :
    verifySignature [107] [] [] = false ∧
    verifySignature [107] [] [97] = false ∧
    verifySignature [107] [] [98] = false :=
  ⟨(webhook_verify_totality_and_false_cases [107] [] []).1 rfl,
   (webhook_verify_totality_and_false_cases [107] [] [97]).2.1
     (by rw [computeSignature_length]; decide),
   (webhook_verify_totality_and_false_cases [107] [] [98]).2.2
     (fun h => by
       have hlen := congrArg List.length h
       rw [computeSignature_length] at hlen
       exact absurd hlen (by decide))⟩

/-- WebhookHandler.validatePayloadTimestamp.  Times are in milliseconds
since the epoch, as Date getTime returns; exact rational arithmetic
stands for JS number arithmetic.  When validation is disabled the check
always passes; otherwise the age in seconds must be at most maxAge and
not negative. -/
def validatePayloadTimestamp (validateTs : Bool) (maxAge nowMs tsMs : ℚ) : Bool :=
  if !validateTs then true
  else decide ((nowMs - tsMs) / 1000 ≤ maxAge) && decide (0 ≤ (nowMs - tsMs) / 1000)

/-- C4: with validation disabled the timestamp check always accepts;
with validation enabled it accepts exactly when the age in seconds lies
in the window from 0 to maxAge, rejecting both stale and future-dated
events. -/
theorem webhook_timestamp_window (maxAge nowMs tsMs : ℚ) :
    validatePayloadTimestamp false maxAge nowMs tsMs = true ∧
    (validatePayloadTimestamp true maxAge nowMs tsMs = true ↔
      0 ≤ (nowMs - tsMs) / 1000 ∧ (nowMs - tsMs) / 1000 ≤ maxAge) := by
  constructor
  · rfl
  · unfold validatePayloadTimestamp
    simp [and_comm]

/-- Witness for C4: at maxAge 300 seconds an event exactly 300 seconds
old is accepted, and with validation disabled any age is accepted. -/
theorem webhook_timestamp_window_witness :
    validatePayloadTimestamp true 300 301000 1000 = true ∧
    validatePayloadTimestamp false 300 0 999999 = true :=
  ⟨(webhook_timestamp_window 300 301000 1000).2.mpr (by norm_num),
   (webhook_timestamp_window 300 0 999999).1⟩

/-- JSON values as produced by JSON.parse: null, booleans, numbers
(exact rationals standing for JS numbers), strings (byte lists), arrays
and objects (association lists; parsed objects have unique keys). -/
inductive Json where
  | null : Json
  | bool (b : Bool) : Json
  | num (q : ℚ) : Json
  | str (s : List Nat) : Json
  | arr (elems : List Json) : Json
  | obj (fields : List (List Nat × Json)) : Json

/-- Property lookup on a parsed object. -/
def lookupKey (fields : List (List Nat × Json)) (k : List Nat) : Option Json :=
  (fields.find? (fun p => p.1 == k)).map (fun p => p.2)

/-- The nine members of CodegenEventTypeSchema. -/
inductive CodegenEventType where
  | agentStarted
  | agentCompleted
  | agentFailed
  | agentCancelled
  | agentProgress
  | toolUsed
  | fileCreated
  | fileUpdated
  | fileDeleted
deriving DecidableEq

/-- Wire spelling of each event type. -/
def eventTypeStr : CodegenEventType → List Nat
  | .agentStarted => ascii ("agent.started")
  | .agentCompleted => ascii ("agent.completed")
  | .agentFailed => ascii ("agent.failed")
  | .agentCancelled => ascii ("agent.cancelled")
  | .agentProgress => ascii ("agent.progress")
  | .toolUsed => ascii ("tool.used")
  | .fileCreated => ascii ("file.created")
  | .fileUpdated => ascii ("file.updated")
  | .fileDeleted => ascii ("file.deleted")

/-- The enum members in schema order. -/
def eventTypeList : List CodegenEventType :=
  [.agentStarted, .agentCompleted, .agentFailed, .agentCancelled,
   .agentProgress, .toolUsed, .fileCreated, .fileUpdated, .fileDeleted]

/-- CodegenEventTypeSchema: a string equal to one of the nine members. -/
def parseEventType : Json → Option CodegenEventType
  | .str s => eventTypeList.find? (fun e => eventTypeStr e == s)
  | _ => none

/-- A z.string() field. -/
def parseString : Json → Option (List Nat)
  | .str s => some s
  | _ => none

/-- A z.number() field. -/
def parseNumber : Json → Option ℚ
  | .num q => some q
  | _ => none

/-- Zero or more digit bytes followed by the byte of Z. -/
def fracDigitsZ : List Nat → Bool
  | [90] => true
  | b :: rest => (48 ≤ b && b ≤ 57) && fracDigitsZ rest
  | _ => false

/-- End of a datetime string: either the byte of Z, or a dot, at least
one digit and the byte of Z. -/
def endPart : List Nat → Bool
  | [90] => true
  | 46 :: b :: rest => (48 ≤ b && b ≤ 57) && fracDigitsZ rest
  | _ => false

/-- Shape check of the z.string().datetime() validator of the Zod
dependency: digits and separators as in YYYY-MM-DDTHH:MM:SS with an
optional fractional part and a terminating Z.  The claims under proof
never depend on the range checks some Zod versions add on top. -/
def isIsoDatetime : List Nat → Bool
  | y1 :: y2 :: y3 :: y4 :: 45 :: m1 :: m2 :: 45 :: d1 :: d2 :: 84 ::
      h1 :: h2 :: 58 :: n1 :: n2 :: 58 :: s1 :: s2 :: rest =>
    [y1, y2, y3, y4, m1, m2, d1, d2, h1, h2, n1, n2, s1, s2].all
      (fun b => 48 ≤ b && b ≤ 57) && endPart rest
  | _ => false

/-- The timestamp schema z.string().datetime().or(z.date()) with its
transform; JSON.parse never produces a Date object, so from the webhook
path only the validated string branch is reachable, and the model keeps
the validated string. -/
def parseDatetimeField : Json → Option (List Nat)
  | .str s => if isIsoDatetime s then some s else none
  | _ => none

/-- A z.array(z.string()) field. -/
def parseStringArray : Json → Option (List (List Nat))
  | .arr xs => xs.mapM parseString
  | _ => none

/-- A z.record(z.unknown()) field: any object. -/
def parseRecord : Json → Option (List (List Nat × Json))
  | .obj fs => some fs
  | _ => none

/-- A required object property: absent means failure. -/
def parseReqField (p : Json → Option α) : Option Json → Option α
  | none => none
  | some j => p j

/-- An optional object property: absent parses to none, present must
parse (null is not accepted by .optional()). -/
def parseOptField (p : Json → Option α) : Option Json → Option (Option α)
  | none => some none
  | some j => (p j).map some

/-- Object keys used by the webhook schemas. -/
def kEvent : List Nat := ascii ("event")

/-- The sessionId key. -/
def kSessionId : List Nat := ascii ("sessionId")

/-- The timestamp key. -/
def kTimestamp : List Nat := ascii ("timestamp")

/-- The data key. -/
def kData : List Nat := ascii ("data")

/-- The type key, the union tag. -/
def kType : List Nat := ascii ("type")

/-- The prompt key. -/
def kPrompt : List Nat := ascii ("prompt")

/-- The result key. -/
def kResult : List Nat := ascii ("result")

/-- The metadata key. -/
def kMetadata : List Nat := ascii ("metadata")

/-- The error key. -/
def kError : List Nat := ascii ("error")

/-- The message key. -/
def kMessage : List Nat := ascii ("message")

/-- The progress key. -/
def kProgress : List Nat := ascii ("progress")

/-- The toolName key. -/
def kToolName : List Nat := ascii ("toolName")

/-- The parameters key. -/
def kParameters : List Nat := ascii ("parameters")

/-- The filePath key. -/
def kFilePath : List Nat := ascii ("filePath")

/-- The content key. -/
def kContent : List Nat := ascii ("content")

/-- The startTime key. -/
def kStartTime : List Nat := ascii ("startTime")

/-- The endTime key. -/
def kEndTime : List Nat := ascii ("endTime")

/-- The duration key. -/
def kDuration : List Nat := ascii ("duration")

/-- The tokensUsed key. -/
def kTokensUsed : List Nat := ascii ("tokensUsed")

/-- The filesModified key. -/
def kFilesModified : List Nat := ascii ("filesModified")

/-- The toolsUsed key. -/
def kToolsUsed : List Nat := ascii ("toolsUsed")

/-- The code key. -/
def kCode : List Nat := ascii ("code")

/-- The details key. -/
def kDetails : List Nat := ascii ("details")

/-- Parsed AgentMetadataSchema value. -/
structure AgentMetadata where
  startTime : List Nat
  endTime : Option (List Nat)
  duration : Option ℚ
  tokensUsed : Option ℚ
  filesModified : Option (List (List Nat))
  toolsUsed : Option (List (List Nat))

/-- AgentMetadataSchema. -/
def parseAgentMetadata : Json → Option AgentMetadata
  | .obj fs =>
    (parseReqField parseDatetimeField (lookupKey fs kStartTime)).bind fun st =>
    (parseOptField parseDatetimeField (lookupKey fs kEndTime)).bind fun et =>
    (parseOptField parseNumber (lookupKey fs kDuration)).bind fun du =>
    (parseOptField parseNumber (lookupKey fs kTokensUsed)).bind fun tk =>
    (parseOptField parseStringArray (lookupKey fs kFilesModified)).bind fun fm =>
    (parseOptField parseStringArray (lookupKey fs kToolsUsed)).map fun tu =>
    AgentMetadata.mk st et du tk fm tu
  | _ => none

/-- Parsed CodegenErrorSchema value. -/
structure CodegenErrorInfo where
  code : List Nat
  message : List Nat
  details : Option (List (List Nat × Json))
  timestamp : List Nat

/-- CodegenErrorSchema. -/
def parseCodegenError : Json → Option CodegenErrorInfo
  | .obj fs =>
    (parseReqField parseString (lookupKey fs kCode)).bind fun c =>
    (parseReqField parseString (lookupKey fs kMessage)).bind fun m =>
    (parseOptField parseRecord (lookupKey fs kDetails)).bind fun dt =>
    (parseReqField parseDatetimeField (lookupKey fs kTimestamp)).map fun ts =>
    CodegenErrorInfo.mk c m dt ts
  | _ => none

/-- The three tags of FileModifiedDataSchema. -/
inductive FileModKind where
  | created
  | updated
  | deleted
deriving DecidableEq

/-- Wire spelling of a file event tag. -/
def fileModKindStr : FileModKind → List Nat
  | .created => ascii ("file.created")
  | .updated => ascii ("file.updated")
  | .deleted => ascii ("file.deleted")

/-- Parsed WebhookEventDataSchema value: one variant per union member
of the schema.  The union has no variant tagged agent.cancelled. -/
inductive WebhookEventData where
  | agentStarted (prompt sessionId : List Nat) : WebhookEventData
  | agentCompleted (sessionId result : List Nat)
      (metadata : AgentMetadata) : WebhookEventData
  | agentFailed (sessionId : List Nat)
      (error : CodegenErrorInfo) : WebhookEventData
  | agentProgress (sessionId message : List Nat)
      (progress : ℚ) : WebhookEventData
  | toolUsed (sessionId toolName : List Nat)
      (parameters : List (List Nat × Json))
      (result : Option Json) : WebhookEventData
  | fileModified (kind : FileModKind) (sessionId filePath : List Nat)
      (content : Option (List Nat)) : WebhookEventData

/-- The union tag carried in the data object. -/
def typeTag : WebhookEventData → List Nat
  | .agentStarted _ _ => ascii ("agent.started")
  | .agentCompleted _ _ _ => ascii ("agent.completed")
  | .agentFailed _ _ => ascii ("agent.failed")
  | .agentProgress _ _ _ => ascii ("agent.progress")
  | .toolUsed _ _ _ _ => ascii ("tool.used")
  | .fileModified k _ _ _ => fileModKindStr k

/-- Check of a z.literal union tag: the type property must be exactly
the literal string. -/
def tagHasLiteral (fs : List (List Nat × Json)) (lit : List Nat) : Bool :=
  match lookupKey fs kType with
  | some (.str t) => t == lit
  | _ => false

/-- AgentStartedDataSchema. -/
def parseAgentStartedData : Json → Option WebhookEventData
  | .obj fs =>
    if tagHasLiteral fs (ascii ("agent.started")) then
      (parseReqField parseString (lookupKey fs kPrompt)).bind fun p =>
      (parseReqField parseString (lookupKey fs kSessionId)).map fun sid =>
      WebhookEventData.agentStarted p sid
    else none
  | _ => none

/-- AgentCompletedDataSchema. -/
def parseAgentCompletedData : Json → Option WebhookEventData
  | .obj fs =>
    if tagHasLiteral fs (ascii ("agent.completed")) then
      (parseReqField parseString (lookupKey fs kSessionId)).bind fun sid =>
      (parseReqField parseString (lookupKey fs kResult)).bind fun r =>
      (parseReqField parseAgentMetadata (lookupKey fs kMetadata)).map fun md =>
      WebhookEventData.agentCompleted sid r md
    else none
  | _ => none

/-- AgentFailedDataSchema. -/
def parseAgentFailedData : Json → Option WebhookEventData
  | .obj fs =>
    if tagHasLiteral fs (ascii ("agent.failed")) then
      (parseReqField parseString (lookupKey fs kSessionId)).bind fun sid =>
      (parseReqField parseCodegenError (lookupKey fs kError)).map fun err =>
      WebhookEventData.agentFailed sid err
    else none
  | _ => none

/-- The progress field: z.number().min(0).max(100). -/
def parseProgressNumber : Json → Option ℚ
  | .num q => if 0 ≤ q ∧ q ≤ 100 then some q else none
  | _ => none

/-- AgentProgressDataSchema. -/
def parseAgentProgressData : Json → Option WebhookEventData
  | .obj fs =>
    if tagHasLiteral fs (ascii ("agent.progress")) then
      (parseReqField parseString (lookupKey fs kSessionId)).bind fun sid =>
      (parseReqField parseString (lookupKey fs kMessage)).bind fun m =>
      (parseReqField parseProgressNumber (lookupKey fs kProgress)).map fun pr =>
      WebhookEventData.agentProgress sid m pr
    else none
  | _ => none

/-- ToolUsedDataSchema; the result field is z.unknown().optional() and
never fails, keeping whatever JSON value is present. -/
def parseToolUsedData : Json → Option WebhookEventData
  | .obj fs =>
    if tagHasLiteral fs (ascii ("tool.used")) then
      (parseReqField parseString (lookupKey fs kSessionId)).bind fun sid =>
      (parseReqField parseString (lookupKey fs kToolName)).bind fun tn =>
      (parseReqField parseRecord (lookupKey fs kParameters)).map fun params =>
      WebhookEventData.toolUsed sid tn params (lookupKey fs kResult)
    else none
  | _ => none

/-- The file tag: z.enum over the three file event names. -/
def parseFileTag : Option Json → Option FileModKind
  | some (.str t) =>
    if t = ascii ("file.created") then some .created
    else if t = ascii ("file.updated") then some .updated
    else if t = ascii ("file.deleted") then some .deleted
    else none
  | _ => none

/-- FileModifiedDataSchema. -/
def parseFileModifiedData : Json → Option WebhookEventData
  | .obj fs =>
    (parseFileTag (lookupKey fs kType)).bind fun k =>
    (parseReqField parseString (lookupKey fs kSessionId)).bind fun sid =>
    (parseReqField parseString (lookupKey fs kFilePath)).bind fun fp =>
    (parseOptField parseString (lookupKey fs kContent)).map fun c =>
    WebhookEventData.fileModified k sid fp c
  | _ => none

/-- WebhookEventDataSchema: the union tried in declaration order. -/
def parseWebhookEventData (j : Json) : Option WebhookEventData :=
  parseAgentStartedData j <|> parseAgentCompletedData j <|>
  parseAgentFailedData j <|> parseAgentProgressData j <|>
  parseToolUsedData j <|> parseFileModifiedData j

/-- Parsed WebhookEventPayloadSchema value.  The timestamp keeps the
validated ISO string; the Date object it is transformed into is an
engine value whose millisecond reading enters the model through the
toTime parameter of processWebhook. -/
structure WebhookEventPayload where
  event : CodegenEventType
  sessionId : List Nat
  timestamp : List Nat
  data : WebhookEventData

/-- WebhookEventPayloadSchema: the four properties are validated
independently; there is no cross-check between the event field and the
union tag inside data. -/
def parseWebhookEventPayload : Json → Option WebhookEventPayload
  | .obj fs =>
    (parseReqField parseEventType (lookupKey fs kEvent)).bind fun e =>
    (parseReqField parseString (lookupKey fs kSessionId)).bind fun sid =>
    (parseReqField parseDatetimeField (lookupKey fs kTimestamp)).bind fun ts =>
    (parseReqField parseWebhookEventData (lookupKey fs kData)).map fun d =>
    WebhookEventPayload.mk e sid ts d
  | _ => none

/-- The raw event property of a JSON body, when it is a string. -/
def eventField (j : Json) : Option (List Nat) :=
  (parseRecord j).bind fun fs => (lookupKey fs kEvent).bind parseString

/-- The raw type property inside the data property of a JSON body,
when both are present with the right shapes. -/
def dataTypeField (j : Json) : Option (List Nat) :=
  (parseRecord j).bind fun fs =>
  (lookupKey fs kData).bind fun jd =>
  (parseRecord jd).bind fun ds =>
  (lookupKey ds kType).bind parseString

/-- Inversion for the record observation. -/
theorem parseRecord_eq_some (j : Json) (fs : List (List Nat × Json)) :
    parseRecord j = some fs ↔ j = Json.obj fs := by
  cases j <;> simp [parseRecord]

/-- Inversion for the string observation. -/
theorem parseString_eq_some (j : Json) (s : List Nat) :
    parseString j = some s ↔ j = Json.str s := by
  cases j <;> simp [parseString]

/-- A body whose event field is agent.started while the union tag of
its data object is tool.used. -/
def fsMismatch : List (List Nat × Json) :=
  [(kEvent, Json.str (ascii ("agent.started"))),
   (kSessionId, Json.str (ascii ("s1"))),
   (kTimestamp, Json.str (ascii ("2024-01-01T00:00:00Z"))),
   (kData, Json.obj [(kType, Json.str (ascii ("tool.used"))),
                     (kSessionId, Json.str (ascii ("s1"))),
                     (kToolName, Json.str (ascii ("t"))),
                     (kParameters, Json.obj [])])]

/-- The payload the mismatched body parses to. -/
def pMismatch : WebhookEventPayload :=
  WebhookEventPayload.mk .agentStarted (ascii ("s1"))
    (ascii ("2024-01-01T00:00:00Z"))
    (.toolUsed (ascii ("s1")) (ascii ("t")) [] none)

/-- Counterexample for C1 as stated: a body whose data union tag
differs from its event field is accepted by the payload schema, so the
parser does not enforce the tag-equals-event invariant. -/
theorem webhook_payload_tag_mismatch_accepted :
    parseWebhookEventPayload (Json.obj fsMismatch) = some pMismatch ∧
    typeTag pMismatch.data ≠ eventTypeStr pMismatch.event := by
  refine ⟨rfl, ?_⟩
  decide

/-- C1 (amended): WebhookEventPayloadSchema validates its four
properties independently: whenever the event property parses as the
event enum, sessionId as a string, timestamp as a datetime and data as
some union variant, the whole payload parses, with no requirement that
the union tag in data match the event property.  The stated claim, that
accepted bodies always have the tag equal to the event field, fails on
the mismatched body above. -/
theorem webhook_payload_fields_independent (fs : List (List Nat × Json))
    (e : CodegenEventType) (sid ts : List Nat) (d : WebhookEventData)
    (he : parseReqField parseEventType (lookupKey fs kEvent) = some e)
    (hs : parseReqField parseString (lookupKey fs kSessionId) = some sid)
    (ht : parseReqField parseDatetimeField (lookupKey fs kTimestamp) = some ts)
    (hd : parseReqField parseWebhookEventData (lookupKey fs kData) = some d) :
    parseWebhookEventPayload (Json.obj fs) =
      some (WebhookEventPayload.mk e sid ts d) := by
  simp only [parseWebhookEventPayload]
  rw [he, hs, ht, hd]
  rfl

/-- A well-formed agent.started body with matching tag. -/
def fsStartedGood : List (List Nat × Json) :=
  [(kEvent, Json.str (ascii ("agent.started"))),
   (kSessionId, Json.str (ascii ("s2"))),
   (kTimestamp, Json.str (ascii ("2024-01-01T00:00:00Z"))),
   (kData, Json.obj [(kType, Json.str (ascii ("agent.started"))),
                     (kPrompt, Json.str (ascii ("p"))),
                     (kSessionId, Json.str (ascii ("s2")))])]

/-- Witness for C1 (amended) at a concrete well-formed body. -/
theorem webhook_payload_fields_independent_witness :
    parseWebhookEventPayload (Json.obj fsStartedGood) =
      some (WebhookEventPayload.mk .agentStarted (ascii ("s2"))
        (ascii ("2024-01-01T00:00:00Z"))
        (.agentStarted (ascii ("p")) (ascii ("s2")))) :=
  webhook_payload_fields_independent fsStartedGood _ _ _ _ rfl rfl rfl rfl

/-- A literal-tagged union member rejects a body whose tag check fails. -/
theorem parseAgentStartedData_none (fs : List (List Nat × Json))
    (h : tagHasLiteral fs (ascii ("agent.started")) = false) :
    parseAgentStartedData (Json.obj fs) = none := by
  simp [parseAgentStartedData, h]

/-- Tag rejection for the agent.completed member. -/
theorem parseAgentCompletedData_none (fs : List (List Nat × Json))
    (h : tagHasLiteral fs (ascii ("agent.completed")) = false) :
    parseAgentCompletedData (Json.obj fs) = none := by
  simp [parseAgentCompletedData, h]

/-- Tag rejection for the agent.failed member. -/
theorem parseAgentFailedData_none (fs : List (List Nat × Json))
    (h : tagHasLiteral fs (ascii ("agent.failed")) = false) :
    parseAgentFailedData (Json.obj fs) = none := by
  simp [parseAgentFailedData, h]

/-- Tag rejection for the agent.progress member. -/
theorem parseAgentProgressData_none (fs : List (List Nat × Json))
    (h : tagHasLiteral fs (ascii ("agent.progress")) = false) :
    parseAgentProgressData (Json.obj fs) = none := by
  simp [parseAgentProgressData, h]

/-- Tag rejection for the tool.used member. -/
theorem parseToolUsedData_none (fs : List (List Nat × Json))
    (h : tagHasLiteral fs (ascii ("tool.used")) = false) :
    parseToolUsedData (Json.obj fs) = none := by
  simp [parseToolUsedData, h]

/-- Tag rejection for the file event member. -/
theorem parseFileModifiedData_none (fs : List (List Nat × Json))
    (h : parseFileTag (lookupKey fs kType) = none) :
    parseFileModifiedData (Json.obj fs) = none := by
  simp [parseFileModifiedData, h]

/-- The tag check reduces to string comparison once the tag is known. -/
theorem tagHasLiteral_of_lookup (fs : List (List Nat × Json)) (t lit : List Nat)
    (hkt : lookupKey fs kType = some (Json.str t)) :
    tagHasLiteral fs lit = (t == lit) := by
  simp [tagHasLiteral, hkt]

/-- C10: a body whose event property and data union tag are both
agent.cancelled never parses: the event enum contains agent.cancelled,
but the data union has no member with that tag, so no such body can
satisfy the schema. -/
theorem webhook_agent_cancelled_unparseable (j : Json)
    (he : eventField j = some (ascii ("agent.cancelled")))
    (hd : dataTypeField j = some (ascii ("agent.cancelled"))) :
    parseWebhookEventPayload j = none := by
  simp only [dataTypeField, Option.bind_eq_some, parseRecord_eq_some,
    parseString_eq_some] at hd
  obtain ⟨fs, hj, jd, hkd, ds, hjd, jt, hkt, hts⟩ := hd
  subst hj
  subst hjd
  subst hts
  have hdata : parseWebhookEventData (Json.obj ds) = none := by
    unfold parseWebhookEventData
    rw [parseAgentStartedData_none ds
          (by rw [tagHasLiteral_of_lookup ds _ _ hkt]; decide),
        parseAgentCompletedData_none ds
          (by rw [tagHasLiteral_of_lookup ds _ _ hkt]; decide),
        parseAgentFailedData_none ds
          (by rw [tagHasLiteral_of_lookup ds _ _ hkt]; decide),
        parseAgentProgressData_none ds
          (by rw [tagHasLiteral_of_lookup ds _ _ hkt]; decide),
        parseToolUsedData_none ds
          (by rw [tagHasLiteral_of_lookup ds _ _ hkt]; decide),
        parseFileModifiedData_none ds (by rw [hkt]; decide)]
    rfl
  cases hE : parseReqField parseEventType (lookupKey fs kEvent) with
  | none => simp [parseWebhookEventPayload, hE]
  | some e =>
    cases hS : parseReqField parseString (lookupKey fs kSessionId) with
    | none => simp [parseWebhookEventPayload, hE, hS]
    | some sid =>
      cases hT : parseReqField parseDatetimeField (lookupKey fs kTimestamp) with
      | none => simp [parseWebhookEventPayload, hE, hS, hT]
      | some ts =>
        simp [parseWebhookEventPayload, hE, hS, hT, hkd, parseReqField, hdata]

/-- A concrete body with event and data tag both agent.cancelled. -/
def fsCancelled : List (List Nat × Json) :=
  [(kEvent, Json.str (ascii ("agent.cancelled"))),
   (kSessionId, Json.str (ascii ("s1"))),
   (kTimestamp, Json.str (ascii ("2024-01-01T00:00:00Z"))),
   (kData, Json.obj [(kType, Json.str (ascii ("agent.cancelled"))),
                     (kSessionId, Json.str (ascii ("s1")))])]

/-- Witness for C10 at the concrete agent.cancelled body. -/
theorem webhook_agent_cancelled_unparseable_witness :
    parseWebhookEventPayload (Json.obj fsCancelled) = none :=
  webhook_agent_cancelled_unparseable (Json.obj fsCancelled) rfl rfl

/-- The handler registry: a JS Map from event type to the ordered list
of registered handler references, entries in insertion order.  A
handler reference is a Nat id; the identity comparison of the source
becomes id equality. -/
abbrev Registry := List (CodegenEventType × List Nat)

/-- Map.get: the value of the entry for the key. -/
def mapGet (m : Registry) (k : CodegenEventType) : Option (List Nat) :=
  (m.find? (fun p => p.1 == k)).map (fun p => p.2)

/-- Map.set: replace the value in place when the key is present,
append a new entry otherwise. -/
def mapSet (m : Registry) (k : CodegenEventType) (v : List Nat) : Registry :=
  if m.any (fun p => p.1 == k) then
    m.map (fun p => if p.1 == k then (k, v) else p)
  else m ++ [(k, v)]

/-- Map.delete. -/
def mapDelete (m : Registry) (k : CodegenEventType) : Registry :=
  m.filter (fun p => p.1 != k)

/-- WebhookHandler.on (on is a Lean keyword, hence the name): append
the handler to the list of the event, duplicates preserved. -/
def onEvent (m : Registry) (event : CodegenEventType) (h : Nat) : Registry :=
  mapSet m event (((mapGet m event).getD []) ++ [h])

/-- WebhookHandler.off: keep only the entries that are not the given
reference; when the filtered list is empty delete the map entry, and
when the event has no entry return the registry unchanged. -/
def off (m : Registry) (event : CodegenEventType) (h : Nat) : Registry :=
  match mapGet m event with
  | none => m
  | some hs =>
    if (hs.filter (fun x => x != h)).length = 0 then mapDelete m event
    else mapSet m event (hs.filter (fun x => x != h))

/-- In-place replacement finds the new value when the key occurs. -/
theorem find?_mapSet_self (m : Registry) (k : CodegenEventType) (v : List Nat)
    (ha : m.any (fun p => p.1 == k) = true) :
    (m.map (fun p => if p.1 == k then (k, v) else p)).find? (fun p => p.1 == k) =
      some (k, v) := by
  induction m with
  | nil => simp at ha
  | cons p m ih =>
    rw [List.map_cons]
    by_cases hp : (p.1 == k) = true
    · rw [if_pos hp, List.find?_cons]
      rw [show (((k, v).1 == k) : Bool) = true from by simp]
    · rw [if_neg hp, List.find?_cons]
      rw [Bool.not_eq_true] at hp
      rw [hp]
      rw [List.any_cons, hp, Bool.false_or] at ha
      exact ih ha

/-- Reading a key just set gives the new value. -/
theorem mapGet_mapSet_self (m : Registry) (k : CodegenEventType) (v : List Nat) :
    mapGet (mapSet m k v) k = some v := by
  unfold mapSet
  split
  case isTrue ha => unfold mapGet; rw [find?_mapSet_self m k v ha]; rfl
  case isFalse ha =>
    unfold mapGet
    rw [List.find?_append]
    have h1 : m.find? (fun p => p.1 == k) = none := by
      rw [List.find?_eq_none]
      intro x hx hc
      exact ha (List.any_eq_true.mpr ⟨x, hx, hc⟩)
    rw [h1]
    simp

/-- In-place replacement is invisible to lookups of other keys. -/
theorem find?_mapSet_ne (m : Registry) (k k2 : CodegenEventType) (v : List Nat)
    (hne : k2 ≠ k) :
    (m.map (fun p => if p.1 == k then (k, v) else p)).find? (fun p => p.1 == k2) =
      m.find? (fun p => p.1 == k2) := by
  induction m with
  | nil => rfl
  | cons p m ih =>
    rw [List.map_cons]
    by_cases hp : (p.1 == k) = true
    · have hpk : p.1 = k := by simpa using hp
      have h2 : ((k == k2) : Bool) = false := by
        simp only [beq_eq_false_iff_ne]
        exact Ne.symm hne
      have h3 : ((p.1 == k2) : Bool) = false := by rw [hpk]; exact h2
      rw [if_pos hp, List.find?_cons, List.find?_cons]
      rw [show (((k, v).1 == k2) : Bool) = false from h2, h3]
      exact ih
    · rw [if_neg hp, List.find?_cons, List.find?_cons]
      by_cases hq : (p.1 == k2) = true
      · rw [hq]
      · rw [Bool.not_eq_true] at hq
        rw [hq]
        exact ih

/-- Setting one key leaves the other keys unchanged. -/
theorem mapGet_mapSet_ne (m : Registry) (k k2 : CodegenEventType) (v : List Nat)
    (hne : k2 ≠ k) :
    mapGet (mapSet m k v) k2 = mapGet m k2 := by
  unfold mapSet
  split
  case isTrue ha => unfold mapGet; rw [find?_mapSet_ne m k k2 v hne]
  case isFalse ha =>
    unfold mapGet
    rw [List.find?_append]
    have h2 : (([(k, v)] : Registry).find? (fun p => p.1 == k2)) = none := by
      simp only [List.find?_cons, List.find?_nil]
      rw [show ((k, v).1 == k2) = false from by
        simp only [beq_eq_false_iff_ne]; exact Ne.symm hne]
    rw [h2, Option.or_none]

/-- Deleting a key removes its entry. -/
theorem mapGet_mapDelete_self (m : Registry) (k : CodegenEventType) :
    mapGet (mapDelete m k) k = none := by
  have h1 : (m.filter (fun p => p.1 != k)).find? (fun p => p.1 == k) = none := by
    rw [List.find?_eq_none]
    intro x hx
    rw [List.mem_filter] at hx
    simpa using hx.2
  unfold mapGet mapDelete
  rw [h1]
  rfl

/-- Deleting one key leaves the other keys unchanged. -/
theorem find?_mapDelete_ne (m : Registry) (k k2 : CodegenEventType)
    (hne : k2 ≠ k) :
    (m.filter (fun p => p.1 != k)).find? (fun p => p.1 == k2) =
      m.find? (fun p => p.1 == k2) := by
  induction m with
  | nil => rfl
  | cons p m ih =>
    rw [List.filter_cons]
    by_cases hp : (p.1 != k) = true
    · rw [if_pos hp, List.find?_cons, List.find?_cons]
      by_cases hq : (p.1 == k2) = true
      · rw [hq]
      · rw [Bool.not_eq_true] at hq
        rw [hq]
        exact ih
    · rw [if_neg hp]
      rw [Bool.not_eq_true] at hp
      have hpk : p.1 = k := by simpa using hp
      have hq : ((p.1 == k2) : Bool) = false := by
        rw [hpk]
        simp only [beq_eq_false_iff_ne]
        exact Ne.symm hne
      rw [List.find?_cons, hq]
      exact ih

/-- Lookup of another key after a delete. -/
theorem mapGet_mapDelete_ne (m : Registry) (k k2 : CodegenEventType)
    (hne : k2 ≠ k) :
    mapGet (mapDelete m k) k2 = mapGet m k2 := by
  unfold mapGet mapDelete
  rw [find?_mapDelete_ne m k k2 hne]

/-- C9: off removes exactly the entries equal to the given handler
reference from the list of the given event, keeping the survivors in
order; when the filtered list is empty the whole map entry is removed;
lists of other events are untouched; and off on an event with no entry
leaves the registry unchanged. -/
theorem webhook_off_removes_exact_reference (m : Registry)
    (event : CodegenEventType) (h : Nat) :
    (mapGet m event = none → off m event h = m) ∧
    mapGet (off m event h) event =
      (match mapGet m event with
       | none => none
       | some hs =>
         if (hs.filter (fun x => x != h)).length = 0 then none
         else some (hs.filter (fun x => x != h))) ∧
    (∀ e2, e2 ≠ event → mapGet (off m event h) e2 = mapGet m e2) := by
  refine ⟨?_, ?_, ?_⟩
  · intro hn
    unfold off
    rw [hn]
  · cases hm : mapGet m event with
    | none =>
      rw [show off m event h = m from by unfold off; rw [hm], hm]
    | some hs =>
      have ho : off m event h =
          if (hs.filter (fun x => x != h)).length = 0 then mapDelete m event
          else mapSet m event (hs.filter (fun x => x != h)) := by
        unfold off; rw [hm]
      rw [ho]
      show mapGet (if (hs.filter (fun x => x != h)).length = 0
          then mapDelete m event
          else mapSet m event (hs.filter (fun x => x != h))) event =
        if (hs.filter (fun x => x != h)).length = 0 then none
        else some (hs.filter (fun x => x != h))
      by_cases hz : (hs.filter (fun x => x != h)).length = 0
      · rw [if_pos hz, if_pos hz, mapGet_mapDelete_self]
      · rw [if_neg hz, if_neg hz, mapGet_mapSet_self]
  · intro e2 hne
    cases hm : mapGet m event with
    | none =>
      rw [show off m event h = m from by unfold off; rw [hm]]
    | some hs =>
      have ho : off m event h =
          if (hs.filter (fun x => x != h)).length = 0 then mapDelete m event
          else mapSet m event (hs.filter (fun x => x != h)) := by
        unfold off; rw [hm]
      rw [ho]
      by_cases hz : (hs.filter (fun x => x != h)).length = 0
      · rw [if_pos hz]
        exact mapGet_mapDelete_ne m event e2 hne
      · rw [if_neg hz]
        exact mapGet_mapSet_ne m event e2 _ hne

/-- A concrete registry with duplicate registrations of reference 1. -/
def regW : Registry := [(.agentStarted, [1, 2, 1]), (.agentCompleted, [3])]

/-- Witness for C9: removing reference 1 from agent.started keeps only
reference 2, leaves agent.completed untouched, and off on an event
with no entry returns the registry unchanged. -/
theorem webhook_off_removes_exact_reference_witness :
    mapGet (off regW .agentStarted 1) .agentStarted = some [2] ∧
    mapGet (off regW .agentStarted 1) .agentCompleted = some [3] ∧
    off regW .agentFailed 9 = regW :=
  ⟨by
    have hg := (webhook_off_removes_exact_reference regW .agentStarted 1).2.1
    rw [hg]
    decide,
   by
    have hg := (webhook_off_removes_exact_reference regW .agentStarted 1).2.2
      .agentCompleted (by decide)
    rw [hg]
    decide,
   (webhook_off_removes_exact_reference regW .agentFailed 9).1 (by decide)⟩

/-- Errors surfaced by processWebhook, one constructor per distinct
outcome of the source: the WebhookVerificationError throw sites for an
invalid signature, a JSON.parse failure (wrapping the parse message)
and a stale timestamp (carrying the offending timestamp); the ZodError
that WebhookEventPayloadSchema.parse throws, which the source does not
catch or wrap; and an error propagated from a handler. -/
inductive WebhookError where
  | signatureInvalid : WebhookError
  | malformedPayload (msg : List Nat) : WebhookError
  | schemaViolation : WebhookError
  | staleTimestamp (ts : List Nat) : WebhookError
  | handlerFailure (e : List Nat) : WebhookError
deriving DecidableEq

/-- Whether an error is the wrapping MalformedPayload kind. -/
def WebhookError.isMalformedPayload : WebhookError → Bool
  | .malformedPayload _ => true
  | _ => false

/-- Promise.all over unit promises of synchronous outcomes: resolve
when all resolve, otherwise reject with the first rejection. -/
def promiseAllUnit : List (Except (List Nat) Unit) → Except (List Nat) Unit
  | [] => .ok ()
  | .ok _ :: rest => promiseAllUnit rest
  | .error e :: _ => .error e

/-- Captured WebhookHandler configuration after the constructor applied
its defaults (maxAge 300, validateTimestamp true) together with the
handler registry. -/
structure WebhookHandlerState where
  secret : List Nat
  maxAge : ℚ
  validateTs : Bool
  handlers : Registry

/-- WebhookHandler.executeHandlers: look up the handlers of the event
of the payload; with none registered return at once; otherwise invoke
every registered handler once with the payload (Promise.all starts all
of them) and surface the first rejection.  Besides the outcome the
model returns the list of invocations performed, each handler
reference paired with the payload it received. -/
def executeHandlers
    (runHandler : Nat → WebhookEventPayload → Except (List Nat) Unit)
    (reg : Registry) (payload : WebhookEventPayload) :
    Except WebhookError Unit × List (Nat × WebhookEventPayload) :=
  if ((mapGet reg payload.event).getD []).length = 0 then (.ok (), [])
  else
    ((promiseAllUnit (((mapGet reg payload.event).getD []).map
        (fun h => runHandler h payload))).mapError .handlerFailure,
     ((mapGet reg payload.event).getD []).map (fun h => (h, payload)))

/-- The message the JSON.parse catch block prepends. -/
def failMsgHead : List Nat := ascii ("Failed to parse webhook payload: ")

/-- Steps 3 and 4 of processWebhook, over the result of the schema
validation: a ZodError propagates unwrapped, a stale timestamp throws
the wrapping error with the offending timestamp, and otherwise the
handlers run. -/
def processParsed (toTime : List Nat → ℚ)
    (runHandler : Nat → WebhookEventPayload → Except (List Nat) Unit)
    (st : WebhookHandlerState) (nowMs : ℚ) :
    Option WebhookEventPayload →
      Except WebhookError Unit × List (Nat × WebhookEventPayload) × Registry
  | none => (.error .schemaViolation, [], st.handlers)
  | some payload =>
    if validatePayloadTimestamp st.validateTs st.maxAge nowMs
        (toTime payload.timestamp) = false then
      (.error (.staleTimestamp payload.timestamp), [], st.handlers)
    else
      ((executeHandlers runHandler st.handlers payload).1,
       (executeHandlers runHandler st.handlers payload).2, st.handlers)

/-- Step 2 of processWebhook, over the result of JSON.parse: a parse
failure throws the wrapping error with the engine message appended to
the fixed text, and a parsed value goes to the schema validation. -/
def processJson (toTime : List Nat → ℚ)
    (runHandler : Nat → WebhookEventPayload → Except (List Nat) Unit)
    (st : WebhookHandlerState) (nowMs : ℚ) :
    Except (List Nat) Json →
      Except WebhookError Unit × List (Nat × WebhookEventPayload) × Registry
  | .error msg => (.error (.malformedPayload (failMsgHead ++ msg)), [], st.handlers)
  | .ok parsed =>
    processParsed toTime runHandler st nowMs (parseWebhookEventPayload parsed)

/-- WebhookHandler.processWebhook, parameterised by the JSON.parse
builtin (jparse, failing with the engine message), the Date reading of
the parsed timestamp in milliseconds (toTime), the behaviour of the
registered handlers (runHandler) and the current time (nowMs).  The
triple returned is the processing outcome, the handler invocations
performed, and the registry after the call, which the source never
mutates on this path. -/
def processWebhook
    (jparse : List Nat → Except (List Nat) Json)
    (toTime : List Nat → ℚ)
    (runHandler : Nat → WebhookEventPayload → Except (List Nat) Unit)
    (st : WebhookHandlerState) (nowMs : ℚ) (rawPayload signature : List Nat) :
    Except WebhookError Unit × List (Nat × WebhookEventPayload) × Registry :=
  if verifySignature st.secret rawPayload signature = false then
    (.error .signatureInvalid, [], st.handlers)
  else processJson toTime runHandler st nowMs (jparse rawPayload)

/-- The registry component of steps 3 and 4 is the input registry. -/
theorem processParsed_registry (toTime : List Nat → ℚ)
    (runHandler : Nat → WebhookEventPayload → Except (List Nat) Unit)
    (st : WebhookHandlerState) (nowMs : ℚ) (o : Option WebhookEventPayload) :
    (processParsed toTime runHandler st nowMs o).2.2 = st.handlers := by
  cases o with
  | none => rfl
  | some p =>
    by_cases htv : validatePayloadTimestamp st.validateTs st.maxAge nowMs
        (toTime p.timestamp) = false
    · simp [processParsed, htv]
    · simp [processParsed, htv]

/-- The registry component of step 2 is the input registry. -/
theorem processJson_registry (toTime : List Nat → ℚ)
    (runHandler : Nat → WebhookEventPayload → Except (List Nat) Unit)
    (st : WebhookHandlerState) (nowMs : ℚ) (e : Except (List Nat) Json) :
    (processJson toTime runHandler st nowMs e).2.2 = st.handlers := by
  cases e with
  | error m => rfl
  | ok jv => exact processParsed_registry toTime runHandler st nowMs _

/-- C7: dispatch invokes exactly the handlers registered for the event
of the payload, each exactly once, in registration order, with that
payload, and no handler from the list of another event type; with no
registered handlers it returns at once with no error and no
invocation. -/
theorem webhook_dispatch_exact_handlers
    (runHandler : Nat → WebhookEventPayload → Except (List Nat) Unit)
    (reg : Registry) (payload : WebhookEventPayload) :
    (executeHandlers runHandler reg payload).2 =
      ((mapGet reg payload.event).getD []).map (fun h => (h, payload)) ∧
    ((mapGet reg payload.event).getD [] = [] →
      executeHandlers runHandler reg payload = (.ok (), [])) := by
  constructor
  · unfold executeHandlers
    split
    next hc =>
      rw [List.length_eq_zero] at hc
      rw [hc]
      rfl
    next hc => rfl
  · intro h0
    unfold executeHandlers
    rw [if_pos (by rw [h0]; rfl)]

/-- Witness for C7: a payload of an event with no registered handlers
is dispatched to nobody and succeeds. -/
theorem webhook_dispatch_exact_handlers_witness :
    executeHandlers (fun _ _ => Except.ok ()) regW
      (WebhookEventPayload.mk .agentFailed [] []
        (.agentStarted [] [])) = (.ok (), []) :=
  (webhook_dispatch_exact_handlers (fun _ _ => Except.ok ()) regW
    (WebhookEventPayload.mk .agentFailed [] [] (.agentStarted [] []))).2
    (by decide)

/-- C5: the four steps of processWebhook run in order: a signature
failure surfaces the invalid-signature error with no invocation; the
registry component of the result is always the input registry; and any
performed invocation implies the signature verified, the body parsed
as JSON, the schema accepted it and the timestamp was valid. -/
theorem webhook_process_step_order
    (jparse : List Nat → Except (List Nat) Json) (toTime : List Nat → ℚ)
    (runHandler : Nat → WebhookEventPayload → Except (List Nat) Unit)
    (st : WebhookHandlerState) (nowMs : ℚ) (raw sig : List Nat) :
    (verifySignature st.secret raw sig = false →
      processWebhook jparse toTime runHandler st nowMs raw sig =
        (.error .signatureInvalid, [], st.handlers)) ∧
    (processWebhook jparse toTime runHandler st nowMs raw sig).2.2 = st.handlers ∧
    ((processWebhook jparse toTime runHandler st nowMs raw sig).2.1 ≠ [] →
      verifySignature st.secret raw sig = true ∧
      ∃ jv, jparse raw = Except.ok jv ∧
      ∃ p, parseWebhookEventPayload jv = some p ∧
        validatePayloadTimestamp st.validateTs st.maxAge nowMs
          (toTime p.timestamp) = true) := by
  refine ⟨?_, ?_, ?_⟩
  · intro hv
    unfold processWebhook
    rw [if_pos hv]
  · unfold processWebhook
    split
    · rfl
    · exact processJson_registry toTime runHandler st nowMs _
  · intro hinv
    by_cases hv : verifySignature st.secret raw sig = false
    · exfalso
      apply hinv
      unfold processWebhook
      rw [if_pos hv]
    · have hv2 : verifySignature st.secret raw sig = true := by
        cases hb : verifySignature st.secret raw sig
        · exact absurd hb hv
        · rfl
      refine ⟨hv2, ?_⟩
      unfold processWebhook at hinv
      rw [if_neg hv] at hinv
      cases hj : jparse raw with
      | error m =>
        rw [hj] at hinv
        exact absurd rfl hinv
      | ok jv =>
        rw [hj] at hinv
        simp only [processJson] at hinv
        cases hp : parseWebhookEventPayload jv with
        | none =>
          rw [hp] at hinv
          exact absurd rfl hinv
        | some p =>
          rw [hp] at hinv
          simp only [processParsed] at hinv
          by_cases htv : validatePayloadTimestamp st.validateTs st.maxAge nowMs
              (toTime p.timestamp) = false
          · rw [if_pos htv] at hinv
            exact absurd rfl hinv
          · have ht2 : validatePayloadTimestamp st.validateTs st.maxAge nowMs
                (toTime p.timestamp) = true := by
              cases hb : validatePayloadTimestamp st.validateTs st.maxAge nowMs
                (toTime p.timestamp)
              · exact absurd hb htv
              · rfl
            exact ⟨jv, rfl, p, hp, ht2⟩

/-- A concrete handler state: secret k, default maxAge and timestamp
validation, one handler registered for agent.started. -/
def stW : WebhookHandlerState :=
  WebhookHandlerState.mk [107] 300 true [(.agentStarted, [1])]

/-- A JSON.parse stand-in returning the well-formed agent.started body. -/
def jparseW : List Nat → Except (List Nat) Json :=
  fun _ => .ok (Json.obj fsStartedGood)

/-- A JSON.parse stand-in failing as on invalid JSON. -/
def jparseErrW : List Nat → Except (List Nat) Json :=
  fun _ => .error (ascii ("Unexpected token"))

/-- A JSON.parse stand-in returning an empty object: valid JSON that
fails the schema. -/
def jparseBadW : List Nat → Except (List Nat) Json :=
  fun _ => .ok (Json.obj [])

/-- A Date reading putting every timestamp at the epoch. -/
def toTimeW : List Nat → ℚ := fun _ => 0

/-- Handlers that always resolve. -/
def runHandlerW : Nat → WebhookEventPayload → Except (List Nat) Unit :=
  fun _ _ => .ok ()

/-- The payload of the well-formed agent.started body. -/
def pStartedGoodW : WebhookEventPayload :=
  WebhookEventPayload.mk .agentStarted (ascii ("s2"))
    (ascii ("2024-01-01T00:00:00Z"))
    (.agentStarted (ascii ("p")) (ascii ("s2")))

/-- The signature of the empty payload under secret k verifies. -/
theorem verify_self_concreteW :
    verifySignature stW.secret [] (computeSignature [107] []) = true :=
  (verifySignature_iff [107] [] (computeSignature [107] [])).mpr rfl

/-- The epoch timestamp is inside the concrete window. -/
theorem validate_epoch_trueW :
    validatePayloadTimestamp stW.validateTs stW.maxAge 0
      (toTimeW pStartedGoodW.timestamp) = true := by
  show validatePayloadTimestamp true 300 0 0 = true
  unfold validatePayloadTimestamp
  rw [if_neg (by simp)]
  rw [Bool.and_eq_true, decide_eq_true_eq, decide_eq_true_eq]
  constructor <;> norm_num

/-- The concrete full run dispatches to the one registered handler. -/
theorem process_full_run_invocationsW :
    (processWebhook jparseW toTimeW runHandlerW stW 0 []
      (computeSignature [107] [])).2.1 = [(1, pStartedGoodW)] := by
  unfold processWebhook
  rw [if_neg (by simp [verify_self_concreteW])]
  show (processJson toTimeW runHandlerW stW 0
      (Except.ok (Json.obj fsStartedGood))).2.1 = [(1, pStartedGoodW)]
  simp only [processJson]
  rw [show parseWebhookEventPayload (Json.obj fsStartedGood) =
      some pStartedGoodW from rfl]
  simp only [processParsed]
  rw [if_neg (by simp [validate_epoch_trueW])]
  rfl

/-- Witness for C5: a failing signature surfaces the invalid-signature
error at once, and a full concrete run with a valid signature reaches
every one of the four steps. -/
theorem webhook_process_step_order_witness :
    processWebhook jparseW toTimeW runHandlerW stW 0 [] [] =
      (.error .signatureInvalid, [], stW.handlers) ∧
    (verifySignature stW.secret [] (computeSignature [107] []) = true ∧
     ∃ jv, jparseW [] = Except.ok jv ∧
     ∃ p, parseWebhookEventPayload jv = some p ∧
       validatePayloadTimestamp stW.validateTs stW.maxAge 0
         (toTimeW p.timestamp) = true) :=
  ⟨(webhook_process_step_order jparseW toTimeW runHandlerW stW 0 [] []).1
     (by decide),
   (webhook_process_step_order jparseW toTimeW runHandlerW stW 0 []
      (computeSignature [107] [])).2.2 (by
        rw [process_full_run_invocationsW]
        exact List.cons_ne_nil _ _)⟩

/-- C6 (amended): with a valid signature, a body that is not valid
JSON makes processWebhook fail with MalformedPayload wrapping the
engine parse message; a body that is valid JSON but fails the schema
makes it fail with the schema validator error, which the source throws
unwrapped (a ZodError rather than the wrapping
WebhookVerificationError).  The stated claim, that the schema failure
is also surfaced as a wrapping MalformedPayload, fails on the
counterexample below. -/
theorem webhook_malformed_payload_errors
    (jparse : List Nat → Except (List Nat) Json) (toTime : List Nat → ℚ)
    (runHandler : Nat → WebhookEventPayload → Except (List Nat) Unit)
    (st : WebhookHandlerState) (nowMs : ℚ) (raw sig : List Nat)
    (hv : verifySignature st.secret raw sig = true) :
    (∀ msg, jparse raw = Except.error msg →
      processWebhook jparse toTime runHandler st nowMs raw sig =
        (.error (.malformedPayload (failMsgHead ++ msg)), [], st.handlers)) ∧
    (∀ jv, jparse raw = Except.ok jv → parseWebhookEventPayload jv = none →
      processWebhook jparse toTime runHandler st nowMs raw sig =
        (.error .schemaViolation, [], st.handlers)) := by
  have hv2 : ¬(verifySignature st.secret raw sig = false) := by simp [hv]
  constructor
  · intro msg hm
    unfold processWebhook
    rw [if_neg hv2, hm]
    rfl
  · intro jv hj hp
    unfold processWebhook
    rw [if_neg hv2, hj]
    simp only [processJson]
    rw [hp]
    rfl

/-- Counterexample for C6 as stated: with a valid signature, a body
that is valid JSON but fails the schema produces the schema validator
error, which is not a MalformedPayload wrapping any parse message. -/
theorem webhook_schema_error_not_wrapped :
    processWebhook jparseBadW toTimeW runHandlerW stW 0 []
        (computeSignature [107] []) =
      (.error .schemaViolation, [], stW.handlers) ∧
    WebhookError.isMalformedPayload .schemaViolation = false := by
  refine ⟨?_, rfl⟩
  unfold processWebhook
  rw [if_neg (by simp [verify_self_concreteW])]
  rfl

/-- Witness for C6 (amended) at concrete runs for both failure kinds. -/
theorem webhook_malformed_payload_errors_witness :
    processWebhook jparseErrW toTimeW runHandlerW stW 0 []
        (computeSignature [107] []) =
      (.error (.malformedPayload (failMsgHead ++ ascii ("Unexpected token"))),
       [], stW.handlers) ∧
    processWebhook jparseBadW toTimeW runHandlerW stW 0 []
        (computeSignature [107] []) =
      (.error .schemaViolation, [], stW.handlers) :=
  ⟨(webhook_malformed_payload_errors jparseErrW toTimeW runHandlerW stW 0 []
      (computeSignature [107] []) verify_self_concreteW).1
      (ascii ("Unexpected token")) rfl,
   (webhook_malformed_payload_errors jparseBadW toTimeW runHandlerW stW 0 []
      (computeSignature [107] []) verify_self_concreteW).2 (Json.obj []) rfl rfl⟩

end CyrusCodegen
